import Mathlib

set_option maxRecDepth 10000

/-!
# Arcadia Protocol — timelock operation-identifier subsystem, formal model

Shallow embedding of the deterministic operation-identifier (opId) computation
of the Arcadia repository: the client-side `computeOpIdSingle` /
`computeOpIdBatch` functions of `backend/scripts/demo_verify.js`
(src/unnamed/part_000), the CLI helper's `mkSalt` and the polling loop of
`cmdVerify` from `scripts/timelockHelper.js` (src/unnamed/part_001).

Modelling choices:
* A byte string is a `List Nat` whose entries are the byte values; hex strings
  of the JS source are modelled by the byte strings they denote.
* `keccak256` is external library code (ethers.js), not repository code; it is
  modelled as an explicit function parameter `H : List Nat → Nat` returning the
  digest as a number (a faithful keccak has range `< 256 ^ 32`; theorems that
  need this state it as a hypothesis).
* `ethers.AbiCoder.defaultAbiCoder().encode` is modelled by `abiEncode` over
  the exact type lists the source uses: `address`, `uint256`, `bytes32` are
  single 32-byte big-endian words; `bytes` is length-prefixed and right-padded
  to a 32-byte multiple; `address[]`/`uint256[]` are length-prefixed word
  sequences; dynamic values get a 32-byte offset slot in the head, counted from
  the start of the encoding, in declared order.
* JavaScript falsy checks on the `predecessorHex`/`saltHex` arguments
  (`x || ethers.ZeroBytes32`, `if (!salt)`) are modelled by `HexArg`:
  `jsNull` covers `null`/`undefined`, `emptyStr` the empty string (falsy), and
  `hex v` a well-formed nonempty hex string of value `v` (truthy, even when
  `v = 0`).
-/

/-- Big-endian byte string of length `k` for the number `n` (mod `256 ^ k`). -/
def toBytesBE : Nat → Nat → List Nat
  | 0, _ => []
  | k + 1, n => toBytesBE k (n / 256) ++ [n % 256]

/-- A 32-byte ABI word: `address`, `uint256` and `bytes32` all encode to this. -/
def word (n : Nat) : List Nat := toBytesBE 32 n

/-- The number denoted by a big-endian byte string. -/
def fromBytes (l : List Nat) : Nat := l.foldl (fun a b => a * 256 + b) 0

/-- Right-pad a byte string with zeros to a multiple of 32 bytes. -/
def padRight32 (b : List Nat) : List Nat :=
  b ++ List.replicate ((32 - b.length % 32) % 32) 0

/-- ABI tail encoding of a `uint256[]` / `address[]`: length word followed by
one word per element. -/
def encArr (vs : List Nat) : List Nat := word vs.length ++ (vs.map word).flatten

/-- The ABI values the source passes to `defaultAbiCoder().encode`. -/
inductive AbiVal where
  | addr (v : Nat)
  | uint (v : Nat)
  | b32 (v : Nat)
  | bytes (b : List Nat)
  | addrArr (vs : List Nat)
  | uintArr (vs : List Nat)
deriving DecidableEq

/-- Whether an ABI value is dynamically encoded (offset slot in the head). -/
def AbiVal.isDyn : AbiVal → Bool
  | .bytes _ => true
  | .addrArr _ => true
  | .uintArr _ => true
  | _ => false

/-- Head (inline) encoding of a static ABI value. -/
def AbiVal.headEnc : AbiVal → List Nat
  | .addr v => word v
  | .uint v => word v
  | .b32 v => word v
  | _ => []

/-- Tail encoding of a dynamic ABI value. -/
def AbiVal.tailEnc : AbiVal → List Nat
  | .bytes b => word b.length ++ padRight32 b
  | .addrArr vs => encArr vs
  | .uintArr vs => encArr vs
  | _ => []

/-- Head/tail worker for `abiEncode`: `base` is the total head size, `tLen`
the number of tail bytes already emitted; returns `(head, tail)`. -/
def abiEncodeGo (base : Nat) : List AbiVal → Nat → List Nat × List Nat
  | [], _ => ([], [])
  | v :: rest, tLen =>
    if v.isDyn then
      let e := v.tailEnc
      let p := abiEncodeGo base rest (tLen + e.length)
      (word (base + tLen) ++ p.1, e ++ p.2)
    else
      let p := abiEncodeGo base rest tLen
      (v.headEnc ++ p.1, p.2)

/-- `ethers.AbiCoder.defaultAbiCoder().encode` for the type lists used by the
source: 32-byte head slot per value, dynamic tails appended after the head,
offsets counted from the start of the encoding. -/
def abiEncode (vals : List AbiVal) : List Nat :=
  let p := abiEncodeGo (32 * vals.length) vals 0
  p.1 ++ p.2

/-- A JavaScript value passed for the `predecessorHex` / `saltHex` arguments:
`null`/`undefined`, the empty string (both falsy), or a well-formed nonempty
hex string denoting the value `v` (truthy). -/
inductive HexArg where
  | jsNull
  | emptyStr
  | hex (v : Nat)
deriving DecidableEq

/-- `x || ethers.ZeroBytes32`: a falsy argument becomes the zero word. -/
def hexOrZero : HexArg → Nat
  | .hex v => v
  | _ => 0

/-- The `{ opId, salt }` record returned by the opId computations. -/
structure OpIdResult where
  opId : Nat
  salt : Nat
deriving DecidableEq

/-- `computeOpIdSingle` of `backend/scripts/demo_verify.js`:
inner hash of the payload, falsy predecessor defaulted to zero, salt either
the given one (truthy) or derived as the hash of the
`(bytes, address, uint256, bytes32)` encoding of
`(data, target, value, predecessor)`, and the opId the hash of the
`(address, uint256, bytes32, bytes32, bytes32)` encoding of
`(target, value, innerHash, predecessor, salt)`. -/
def computeOpIdSingle (H : List Nat → Nat) (target value : Nat) (data : List Nat)
    (predecessorArg saltArg : HexArg) : OpIdResult :=
  let innerHash := H data
  let predecessor := hexOrZero predecessorArg
  let salt :=
    match saltArg with
    | .hex s => s
    | _ => H (abiEncode [.bytes data, .addr target, .uint value, .b32 predecessor])
  let encoded :=
    abiEncode [.addr target, .uint value, .b32 innerHash, .b32 predecessor, .b32 salt]
  { opId := H encoded, salt := salt }

/-- `computeOpIdBatch` of `backend/scripts/demo_verify.js`:
the payloads are byte-concatenated and hashed (`packedHash`), falsy
predecessor defaulted to zero, salt either the given one or derived as the
hash of the `(address[], uint256[], bytes32, bytes32)` encoding of
`(targets, values, packedHash, predecessor)`, and the opId the hash of the
`(address[], uint256[], bytes32, bytes32, bytes32)` encoding of
`(targets, values, packedHash, predecessor, salt)`. The source performs no
length validation on the three arrays. -/
def computeOpIdBatch (H : List Nat → Nat) (targets values : List Nat)
    (datas : List (List Nat)) (predecessorArg saltArg : HexArg) : OpIdResult :=
  let predecessor := hexOrZero predecessorArg
  let packedHash := H datas.flatten
  let salt :=
    match saltArg with
    | .hex s => s
    | _ => H (abiEncode [.addrArr targets, .uintArr values, .b32 packedHash, .b32 predecessor])
  let encodedTop :=
    abiEncode [.addrArr targets, .uintArr values, .b32 packedHash, .b32 predecessor, .b32 salt]
  { opId := H encodedTop, salt := salt }

/-- The UTF-8 bytes of an ASCII string (the strings `mkSalt` hashes are decimal
digits and a dot, all ASCII). -/
def utf8Bytes (s : String) : List Nat := s.toList.map Char.toNat

/-- `mkSalt` of `scripts/timelockHelper.js`: a provided salt is used as given
(the hex normalisation of the source does not change the denoted value); with
no provided salt the result is the hash of the UTF-8 bytes of
`String(Date.now()) + Math.random()`, modelled by the current time `now` and
the stringified random number `rng` taken as explicit environment inputs. -/
def mkSalt (H : List Nat → Nat) (provided : Option Nat) (now : Nat) (rng : String) : Nat :=
  match provided with
  | some v => v
  | none => H (utf8Bytes (toString now ++ rng))

/-- One executor observation: the three predicates `isOperationReady`,
`isOperationDone`, `isOperationPending` read in one loop iteration. -/
structure Obs where
  ready : Bool
  done : Bool
  pending : Bool
deriving DecidableEq

/-- Outcome of the `cmdVerify` polling loop: the returned
`{ ready, done, pending }` record, or the thrown timeout error. -/
inductive VResult where
  | success (ready done pending : Bool)
  | timeoutErr
deriving DecidableEq

/-- The polling loop of `cmdVerify` in `scripts/timelockHelper.js`: at
iteration `i` it reads the three predicates (`obs i`), returns success if
`ready`, then if `done` (with `ready=false, done=true, pending=false`), then
throws the timeout error if the elapsed milliseconds (`elapsed i`, the value
of `Date.now() - start` at iteration `i`) exceed `timeoutSec * 1000`
(`(Date.now() - start) / 1000 > timeout`), else sleeps and repeats. `fuel`
bounds the number of iterations modelled; `none` means the loop was still
running after `fuel` iterations. -/
def cmdVerifyLoop (obs : Nat → Obs) (elapsed : Nat → Nat) (timeoutSec : Nat) :
    Nat → Nat → Option VResult
  | 0, _ => none
  | fuel + 1, i =>
    let o := obs i
    if o.ready then some (.success true o.done o.pending)
    else if o.done then some (.success false true false)
    else if timeoutSec * 1000 < elapsed i then some .timeoutErr
    else cmdVerifyLoop obs elapsed timeoutSec fuel (i + 1)

/-- Modelled from the spec: the executor's `hashOperation` (the OpenZeppelin
`TimelockController` behind `ArcadiaTimelock`, whose body is not under the
repository sources; only its ABI declaration and callers are). Per spec
§4.1–4.2 and §6, the executor computes the identifier with the exact same
canonical encoding and hash as the client: inner-data digest of `data`, then
the hash of the `(address, uint256, bytes32, bytes32, bytes32)` encoding of
`(target, value, innerHash, predecessor, salt)`. -/
def hashOperation (H : List Nat → Nat) (target value : Nat) (data : List Nat)
    (predecessor salt : Nat) : Nat :=
  H (abiEncode [.addr target, .uint value, .b32 (H data), .b32 predecessor, .b32 salt])

/-- Byte-sum toy digest, used to evaluate the model at concrete inputs. -/
def hashSum (l : List Nat) : Nat := l.foldl (fun a b => a + b) 0

/-- Truncated big-endian value digest: range-correct (`< 256 ^ 32`) concrete
stand-in hash for evaluating the model. -/
def hashTrunc (l : List Nat) : Nat := fromBytes l % 256 ^ 32

theorem toBytesBE_length (k n : Nat) : (toBytesBE k n).length = k := by
  induction k generalizing n with
  | zero => rfl
  | succ k ih => simp [toBytesBE, ih]

theorem word_length (n : Nat) : (word n).length = 32 := toBytesBE_length 32 n

theorem fromBytes_append_singleton (l : List Nat) (b : Nat) :
    fromBytes (l ++ [b]) = fromBytes l * 256 + b := by
  simp [fromBytes, List.foldl_append]

theorem fromBytes_toBytesBE (k n : Nat) : fromBytes (toBytesBE k n) = n % 256 ^ k := by
  induction k generalizing n with
  | zero => simp [toBytesBE, fromBytes, Nat.mod_one]
  | succ k ih =>
    rw [toBytesBE, fromBytes_append_singleton, ih]
    rw [pow_succ, mul_comm (256 ^ k) 256, Nat.mod_mul]
    ring

theorem word_inj {a b : Nat} (ha : a < 256 ^ 32) (hb : b < 256 ^ 32)
    (h : word a = word b) : a = b := by
  have := congrArg fromBytes h
  rwa [word, word, fromBytes_toBytesBE, fromBytes_toBytesBE,
    Nat.mod_eq_of_lt ha, Nat.mod_eq_of_lt hb] at this

theorem flatten_map_word_length (vs : List Nat) :
    ((vs.map word).flatten).length = 32 * vs.length := by
  induction vs with
  | nil => rfl
  | cons x xs ih => simp [word_length, ih]; ring

theorem encArr_length (vs : List Nat) : (encArr vs).length = 32 + 32 * vs.length := by
  rw [encArr, List.length_append, word_length, flatten_map_word_length]

theorem flatten_map_word_inj {xs ys : List Nat} (hlen : xs.length = ys.length)
    (hx : ∀ x ∈ xs, x < 256 ^ 32) (hy : ∀ y ∈ ys, y < 256 ^ 32)
    (h : (xs.map word).flatten = (ys.map word).flatten) : xs = ys := by
  induction xs generalizing ys with
  | nil => cases ys with
    | nil => rfl
    | cons b bs => simp at hlen
  | cons a as ih =>
    cases ys with
    | nil => simp at hlen
    | cons b bs =>
      simp only [List.map_cons, List.flatten_cons] at h
      have hsplit := List.append_inj h (by simp [word_length])
      have hab : a = b := word_inj (hx a (by simp)) (hy b (by simp)) hsplit.1
      have : as = bs := by
        refine ih (by simpa using hlen) (fun x hx2 => hx x (by simp [hx2]))
          (fun y hy2 => hy y (by simp [hy2])) hsplit.2
      rw [hab, this]

theorem encArr_inj {xs ys : List Nat} (hlen : xs.length = ys.length)
    (hx : ∀ x ∈ xs, x < 256 ^ 32) (hy : ∀ y ∈ ys, y < 256 ^ 32)
    (h : encArr xs = encArr ys) : xs = ys := by
  unfold encArr at h
  have hsplit := List.append_inj h (by simp [word_length])
  exact flatten_map_word_inj hlen hx hy hsplit.2

theorem abiEncode_single_outer (t v ih p s : Nat) :
    abiEncode [.addr t, .uint v, .b32 ih, .b32 p, .b32 s] =
      word t ++ word v ++ word ih ++ word p ++ word s := by
  simp [abiEncode, abiEncodeGo, AbiVal.isDyn, AbiVal.headEnc, AbiVal.tailEnc]

theorem abiEncode_single_salt (d : List Nat) (t v p : Nat) :
    abiEncode [.bytes d, .addr t, .uint v, .b32 p] =
      word 128 ++ word t ++ word v ++ word p ++ word d.length ++ padRight32 d := by
  simp [abiEncode, abiEncodeGo, AbiVal.isDyn, AbiVal.headEnc, AbiVal.tailEnc]

theorem abiEncode_batch_salt (ts vs : List Nat) (ih p : Nat) :
    abiEncode [.addrArr ts, .uintArr vs, .b32 ih, .b32 p] =
      word 128 ++ word (160 + 32 * ts.length) ++ word ih ++ word p ++
        encArr ts ++ encArr vs := by
  simp [abiEncode, abiEncodeGo, AbiVal.isDyn, AbiVal.headEnc, AbiVal.tailEnc, encArr_length]
  ring_nf

theorem abiEncode_batch_outer (ts vs : List Nat) (ih p s : Nat) :
    abiEncode [.addrArr ts, .uintArr vs, .b32 ih, .b32 p, .b32 s] =
      word 160 ++ word (192 + 32 * ts.length) ++ word ih ++ word p ++ word s ++
        encArr ts ++ encArr vs := by
  simp [abiEncode, abiEncodeGo, AbiVal.isDyn, AbiVal.headEnc, AbiVal.tailEnc, encArr_length]
  ring_nf

/-- C1: for every single operation (target, value, data, predecessor, salt
argument), the client-side identifier of `computeOpIdSingle` equals the
identifier the executor computes via `hashOperation` on the same five fields
(with the client's resolved predecessor and salt): the canonical
encoding-and-hash rules of the two sides are the same function. -/
theorem claimC1_client_matches_executor (H : List Nat → Nat) (t v : Nat)
    (d : List Nat) (pArg sArg : HexArg) :
    (computeOpIdSingle H t v d pArg sArg).opId =
      hashOperation H t v d (hexOrZero pArg)
        (computeOpIdSingle H t v d pArg sArg).salt := by
  cases sArg <;> rfl

/-- C2: with an explicit salt, `computeOpIdSingle` returns the hash of the
ABI encoding of `(address target, uint256 value, bytes32 innerHash, bytes32
predecessor, bytes32 salt)` with `innerHash` the hash of the payload; and for
equal-length arrays `computeOpIdBatch` returns the hash of the ABI encoding of
`(address[] targets, uint256[] values, bytes32 innerHash, bytes32 predecessor,
bytes32 salt)` with `innerHash` the hash of the concatenation of the payloads
in array order; both shown with the encodings spelled out byte-for-byte. -/
theorem claimC2_opId_formulas (H : List Nat → Nat) (pArg : HexArg) (s : Nat) :
    (∀ (t v : Nat) (d : List Nat),
      (computeOpIdSingle H t v d pArg (.hex s)).opId =
        H (word t ++ word v ++ word (H d) ++ word (hexOrZero pArg) ++ word s))
    ∧ ∀ (ts vs : List Nat) (ds : List (List Nat)),
        ts.length = vs.length → vs.length = ds.length →
        (computeOpIdBatch H ts vs ds pArg (.hex s)).opId =
          H (word 160 ++ word (192 + 32 * ts.length) ++ word (H ds.flatten) ++
            word (hexOrZero pArg) ++ word s ++ encArr ts ++ encArr vs) := by
  constructor
  · intro t v d
    exact congrArg H (abiEncode_single_outer t v (H d) (hexOrZero pArg) s)
  · intro ts vs ds h1 h2
    exact congrArg H (abiEncode_batch_outer ts vs (H ds.flatten) (hexOrZero pArg) s)

/-- Witness for C2 at a concrete batch. -/
theorem claimC2_witness :
    (computeOpIdBatch hashSum [1] [2] [[3]] .jsNull (.hex 4)).opId =
      hashSum (word 160 ++ word (192 + 32 * 1) ++ word (hashSum [3]) ++ word 0 ++
        word 4 ++ encArr [1] ++ encArr [2]) :=
  (claimC2_opId_formulas hashSum .jsNull 4).2 [1] [2] [[3]] rfl rfl

/-- C3 (counterexample): with mismatched array lengths (two targets, one
value, one payload), `computeOpIdBatch` does not fail: it returns an opId
(here under the concrete byte-sum digest). -/
theorem claimC3_counterexample :
    ([1, 2] : List Nat).length ≠ ([0] : List Nat).length ∧
      computeOpIdBatch hashSum [1, 2] [0] [[18]] .jsNull (.hex 7) =
        { opId := 192, salt := 7 } :=
  ⟨by decide, by decide⟩

/-- C3 (amended): `computeOpIdBatch` performs no length validation at all: for
every targets/values/datas arrays — equal-length or not — it returns an opId,
the hash of the outer tuple encoding of the arrays as given. -/
theorem claimC3_amended (H : List Nat → Nat) (ts vs : List Nat)
    (ds : List (List Nat)) (pArg sArg : HexArg) :
    (computeOpIdBatch H ts vs ds pArg sArg).opId =
      H (word 160 ++ word (192 + 32 * ts.length) ++ word (H ds.flatten) ++
        word (hexOrZero pArg) ++ word (computeOpIdBatch H ts vs ds pArg sArg).salt ++
        encArr ts ++ encArr vs) :=
  congrArg H (abiEncode_batch_outer ts vs (H ds.flatten) (hexOrZero pArg)
    (computeOpIdBatch H ts vs ds pArg sArg).salt)

/-- C4 (counterexample): the CLI helper `mkSalt` with no provided salt hashes
the current time and a random number; two invocations of the same operation at
different times derive different salts (shown under the concrete byte-sum
digest, at times 1000 and 1001 with the same random draw). -/
theorem claimC4_counterexample :
    mkSalt hashSum none 1000 "0.5" ≠ mkSalt hashSum none 1001 "0.5" := by
  decide

/-- C4 (amended): the no-salt paths of `computeOpIdSingle` and
`computeOpIdBatch` are deterministic — the derived salt is exactly the
content-determined value, so the no-salt call coincides with an explicit-salt
call at that value; the CLI helper `mkSalt`, by contrast, depends on the time
and random environment and differs between independent invocations. -/
theorem claimC4_amended (H : List Nat → Nat) :
    (∀ (t v : Nat) (d : List Nat) (pArg : HexArg),
      computeOpIdSingle H t v d pArg .jsNull =
        computeOpIdSingle H t v d pArg
          (.hex (H (abiEncode [.bytes d, .addr t, .uint v, .b32 (hexOrZero pArg)]))))
    ∧ (∀ (ts vs : List Nat) (ds : List (List Nat)) (pArg : HexArg),
      computeOpIdBatch H ts vs ds pArg .jsNull =
        computeOpIdBatch H ts vs ds pArg
          (.hex (H (abiEncode
            [.addrArr ts, .uintArr vs, .b32 (H ds.flatten), .b32 (hexOrZero pArg)]))))
    ∧ ∃ (now1 now2 : Nat) (rng : String),
        mkSalt hashSum none now1 rng ≠ mkSalt hashSum none now2 rng :=
  ⟨fun _ _ _ _ => rfl, fun _ _ _ _ => rfl, ⟨1000, 1001, "0.5", by decide⟩⟩

/-- C5 (counterexample): swapping the two `(target, value, data)` triples of a
batch — a genuine change in assigned order, the two payloads differ — leaves
the computed opId unchanged whenever the byte concatenation of the payloads is
unchanged, because only that concatenation's digest enters the encoding. -/
theorem claimC5_counterexample :
    ([[17], [17, 17]] : List (List Nat)) ≠ [[17, 17], [17]] ∧
      (([5, 5] : List Nat).zip (([0, 0] : List Nat).zip [[17], [17, 17]])).Perm
        (([5, 5] : List Nat).zip (([0, 0] : List Nat).zip [[17, 17], [17]])) ∧
      computeOpIdBatch hashTrunc [5, 5] [0, 0] [[17], [17, 17]] (.hex 1) (.hex 2) =
        computeOpIdBatch hashTrunc [5, 5] [0, 0] [[17, 17], [17]] (.hex 1) (.hex 2) :=
  ⟨by decide, by decide, by decide⟩

/-- C5 (amended): for two batches with the same predecessor and salt arguments
and componentwise equal-length arrays (in particular, for any permutation of
one batch's triples), if the targets lists differ, the values lists differ, or
the payload concatenations differ, then equal opIds would exhibit an explicit
hash collision; order changes that leave all three unchanged (as in the
counterexample) leave the opId unchanged. -/
theorem claimC5_amended (H : List Nat → Nat) (ts vs ts2 vs2 : List Nat)
    (ds ds2 : List (List Nat)) (pArg sArg : HexArg)
    (hB : ∀ l, H l < 256 ^ 32)
    (hlt : ts.length = ts2.length) (hlv : vs.length = vs2.length)
    (hts : ∀ x ∈ ts, x < 256 ^ 32) (hts2 : ∀ x ∈ ts2, x < 256 ^ 32)
    (hvs : ∀ x ∈ vs, x < 256 ^ 32) (hvs2 : ∀ x ∈ vs2, x < 256 ^ 32)
    (hdiff : ts ≠ ts2 ∨ vs ≠ vs2 ∨ ds.flatten ≠ ds2.flatten) :
    (computeOpIdBatch H ts vs ds pArg sArg).opId =
      (computeOpIdBatch H ts2 vs2 ds2 pArg sArg).opId →
    ∃ x y, x ≠ y ∧ H x = H y := by
  intro hop
  by_cases henc :
      abiEncode [.addrArr ts, .uintArr vs, .b32 (H ds.flatten),
        .b32 (hexOrZero pArg), .b32 ((computeOpIdBatch H ts vs ds pArg sArg).salt)] =
      abiEncode [.addrArr ts2, .uintArr vs2, .b32 (H ds2.flatten),
        .b32 (hexOrZero pArg), .b32 ((computeOpIdBatch H ts2 vs2 ds2 pArg sArg).salt)]
  · rw [abiEncode_batch_outer, abiEncode_batch_outer] at henc
    simp only [List.append_assoc] at henc
    have p1 := (List.append_inj henc (by simp [word_length])).2
    have p2 := (List.append_inj p1 (by simp [word_length])).2
    have p3 := List.append_inj p2 (by simp [word_length])
    have hih : H ds.flatten = H ds2.flatten := word_inj (hB _) (hB _) p3.1
    have p4 := (List.append_inj p3.2 (by simp [word_length])).2
    have p5 := (List.append_inj p4 (by simp [word_length])).2
    have p6 := List.append_inj p5 (by simp [encArr_length, hlt])
    have hts_eq : ts = ts2 := encArr_inj hlt hts hts2 p6.1
    have hvs_eq : vs = vs2 := encArr_inj hlv hvs hvs2 p6.2
    rcases hdiff with h | h | h
    · exact absurd hts_eq h
    · exact absurd hvs_eq h
    · exact ⟨ds.flatten, ds2.flatten, h, hih⟩
  · exact ⟨_, _, henc, hop⟩

/-- Witness for C5 (amended) at a concrete pair of permuted batches. -/
theorem claimC5_witness :
    ([1, 2] : List Nat) ≠ [2, 1] ∧
      ((computeOpIdBatch hashTrunc [1, 2] [3, 4] [[5], [6]] .jsNull (.hex 9)).opId =
          (computeOpIdBatch hashTrunc [2, 1] [4, 3] [[6], [5]] .jsNull (.hex 9)).opId →
        ∃ x y, x ≠ y ∧ hashTrunc x = hashTrunc y) :=
  ⟨by decide,
    claimC5_amended hashTrunc [1, 2] [3, 4] [2, 1] [4, 3] [[5], [6]] [[6], [5]]
      .jsNull (.hex 9) (fun l => Nat.mod_lt _ (by norm_num)) rfl rfl
      (by decide) (by decide) (by decide) (by decide) (Or.inl (by decide))⟩

/-- C6: with no explicit salt, the derived salt of a single operation is the
hash of the ABI encoding of `(bytes data, address target, uint256 value,
bytes32 predecessor)` — the payload appearing as the raw dynamic field
(offset slot, length prefix, zero-padded bytes), not as its inner hash — and
the derived salt of a batch is the hash of the ABI encoding of `(address[]
targets, uint256[] values, bytes32 innerHash, bytes32 predecessor)`, where
`innerHash` is the same concatenated-payload digest used in the outer hash. -/
theorem claimC6_salt_derivation (H : List Nat → Nat) (pArg : HexArg) :
    (∀ (t v : Nat) (d : List Nat),
      (computeOpIdSingle H t v d pArg .jsNull).salt =
        H (word 128 ++ word t ++ word v ++ word (hexOrZero pArg) ++
          word d.length ++ padRight32 d))
    ∧ ∀ (ts vs : List Nat) (ds : List (List Nat)),
        (computeOpIdBatch H ts vs ds pArg .jsNull).salt =
          H (word 128 ++ word (160 + 32 * ts.length) ++ word (H ds.flatten) ++
            word (hexOrZero pArg) ++ encArr ts ++ encArr vs) :=
  ⟨fun t v d => congrArg H (abiEncode_single_salt d t v (hexOrZero pArg)),
   fun ts vs ds => congrArg H (abiEncode_batch_salt ts vs (H ds.flatten) (hexOrZero pArg))⟩

/-- C7: whenever the executor reports `done = true` and `ready = false` at the
first poll, the verify loop returns the success record
`{ ready := false, done := true, pending := false }` — not a timeout and not
an error — for every elapsed-time behaviour, timeout setting and poll
position. -/
theorem claimC7_done_returns_success (obs : Nat → Obs) (elapsed : Nat → Nat)
    (timeoutSec fuel i : Nat) (hf : 0 < fuel)
    (hd : (obs i).done = true) (hr : (obs i).ready = false) :
    cmdVerifyLoop obs elapsed timeoutSec fuel i = some (.success false true false) := by
  cases fuel with
  | zero => exact absurd hf (by simp)
  | succ f => simp [cmdVerifyLoop, hr, hd]

/-- Witness for C7 with a mock executor that is done but never ready. -/
theorem claimC7_witness :
    cmdVerifyLoop (fun _ => ⟨false, true, true⟩) (fun _ => 0) 600 1 0 =
      some (.success false true false) :=
  claimC7_done_returns_success (fun _ => ⟨false, true, true⟩) (fun _ => 0) 600 1 0
    (by decide) rfl rfl

/-- C8: against an executor that never reports ready and never reports done,
the verify loop (1) only ever produces the timeout error, and only at a poll
whose elapsed milliseconds exceed `timeoutSec * 1000` — never earlier — and
(2) does produce the timeout error as soon as a poll's elapsed time exceeds
the budget (given enough iterations to reach it). -/
theorem claimC8_timeout (obs : Nat → Obs) (elapsed : Nat → Nat) (timeoutSec : Nat)
    (hr : ∀ n, (obs n).ready = false) (hd : ∀ n, (obs n).done = false) :
    (∀ fuel i r, cmdVerifyLoop obs elapsed timeoutSec fuel i = some r →
      r = VResult.timeoutErr ∧ ∃ j, i ≤ j ∧ timeoutSec * 1000 < elapsed j)
    ∧ ∀ j i fuel, i ≤ j → timeoutSec * 1000 < elapsed j → j - i < fuel →
        cmdVerifyLoop obs elapsed timeoutSec fuel i = some VResult.timeoutErr := by
  constructor
  · intro fuel
    induction fuel with
    | zero => intro i r h; exact absurd h (by simp [cmdVerifyLoop])
    | succ f ih =>
      intro i r h
      by_cases hto : timeoutSec * 1000 < elapsed i
      · rw [cmdVerifyLoop] at h
        simp [hr i, hd i, hto] at h
        exact ⟨h.symm, i, le_refl i, hto⟩
      · rw [cmdVerifyLoop] at h
        simp [hr i, hd i, hto] at h
        obtain ⟨hre, j, hij, hj⟩ := ih (i + 1) r h
        exact ⟨hre, j, by omega, hj⟩
  · intro j i fuel
    induction fuel generalizing i with
    | zero => intro _ _ h; omega
    | succ f ih =>
      intro hij hj hlt
      by_cases hto : timeoutSec * 1000 < elapsed i
      · rw [cmdVerifyLoop]; simp [hr i, hd i, hto]
      · have hij2 : i + 1 ≤ j := by
          rcases Nat.eq_or_lt_of_le hij with he | hl
          · exact absurd (he ▸ hj) hto
          · omega
        rw [cmdVerifyLoop]
        simp only [hr i, hd i, hto, if_false]
        exact ih (i + 1) hij2 hj (by omega)

/-- Witness for C8 with a mock executor that is never ready nor done and a
clock advancing 1000 ms per poll against a zero-second timeout. -/
theorem claimC8_witness :
    cmdVerifyLoop (fun _ => ⟨false, false, true⟩) (fun n => 1000 * n) 0 2 0 =
      some VResult.timeoutErr :=
  (claimC8_timeout (fun _ => ⟨false, false, true⟩) (fun n => 1000 * n) 0
    (fun _ => rfl) (fun _ => rfl)).2 1 0 2 (by decide) (by decide) (by decide)

/-- C9: a falsy predecessor argument (`null`/`undefined` or the empty string)
produces exactly the same `{ opId, salt }` as the explicit all-zero 32-byte
value, for single and batch operations alike; an empty-string salt behaves
exactly like an absent salt (the derivation path runs), and a nonempty salt
string is used verbatim as the salt. -/
theorem claimC9_falsy_defaults (H : List Nat → Nat) :
    (∀ (t v : Nat) (d : List Nat) (sArg : HexArg),
      computeOpIdSingle H t v d .jsNull sArg = computeOpIdSingle H t v d (.hex 0) sArg
      ∧ computeOpIdSingle H t v d .emptyStr sArg = computeOpIdSingle H t v d (.hex 0) sArg)
    ∧ (∀ (ts vs : List Nat) (ds : List (List Nat)) (sArg : HexArg),
      computeOpIdBatch H ts vs ds .jsNull sArg = computeOpIdBatch H ts vs ds (.hex 0) sArg
      ∧ computeOpIdBatch H ts vs ds .emptyStr sArg = computeOpIdBatch H ts vs ds (.hex 0) sArg)
    ∧ (∀ (t v : Nat) (d : List Nat) (pArg : HexArg),
      computeOpIdSingle H t v d pArg .emptyStr = computeOpIdSingle H t v d pArg .jsNull
      ∧ ∀ s, (computeOpIdSingle H t v d pArg (.hex s)).salt = s)
    ∧ ∀ (ts vs : List Nat) (ds : List (List Nat)) (pArg : HexArg),
      computeOpIdBatch H ts vs ds pArg .emptyStr = computeOpIdBatch H ts vs ds pArg .jsNull
      ∧ ∀ s, (computeOpIdBatch H ts vs ds pArg (.hex s)).salt = s :=
  ⟨fun _ _ _ _ => ⟨rfl, rfl⟩, fun _ _ _ _ => ⟨rfl, rfl⟩,
   fun _ _ _ _ => ⟨rfl, fun _ => rfl⟩, fun _ _ _ _ => ⟨rfl, fun _ => rfl⟩⟩

/-- C10: the verify loop reads the three state predicates before it ever
evaluates the timeout condition: for every timeout setting (in particular
zero) and every elapsed-clock behaviour, an operation that is ready or done at
the first read yields a success record, not a timeout error. -/
theorem claimC10_first_read_beats_timeout (obs : Nat → Obs) (elapsed : Nat → Nat)
    (timeoutSec fuel i : Nat)
    (h : (obs i).ready = true ∨ (obs i).done = true) :
    ∃ r d p, cmdVerifyLoop obs elapsed timeoutSec (fuel + 1) i =
      some (.success r d p) := by
  by_cases hry : (obs i).ready = true
  · exact ⟨true, (obs i).done, (obs i).pending, by simp [cmdVerifyLoop, hry]⟩
  · have hdn : (obs i).done = true := by
      rcases h with h | h
      · exact absurd h hry
      · exact h
    rw [Bool.not_eq_true] at hry
    exact ⟨false, true, false, by simp [cmdVerifyLoop, hry, hdn]⟩

/-- Witness for C10: timeout zero, large already-elapsed clock, ready on the
first read — still success. -/
theorem claimC10_witness :
    ∃ r d p, cmdVerifyLoop (fun _ => ⟨true, false, true⟩) (fun _ => 99999) 0 1 0 =
      some (.success r d p) :=
  claimC10_first_read_beats_timeout (fun _ => ⟨true, false, true⟩) (fun _ => 99999)
    0 0 0 (Or.inl rfl)
